import Mathlib

/-!
Shallow embedding of the MetroWave playback subsystem (src/renderer.js,
src/preload.js) together with proofs of the specification's claims about it.

The embedding models the `QueueManager` class state and methods, the
`playSong` / `playAudioAndUpdateUI` play-request coordination protocol with
its `latestPlayRequestToken` counter, and the video-id validation layer of
the preload script.  JavaScript arrays become `List`, nullable values become
`Option`, the JS cursor (which can be `-1`) becomes `Int`, and the settling
of an awaited promise becomes an explicit `ResolveOutcome` argument of the
continuation function.
-/

namespace MetroWave

/-! ### Generic list helpers modelling JavaScript array operations -/

/-- `Array.prototype.includes` on a list of strings. -/
def jsIncludes : List String → String → Bool
  | [], _ => false
  | a :: t, x => a == x || jsIncludes t x

/-- First index satisfying `p`, as an `Option` (used to model
`Array.prototype.findIndex`, which returns `-1` on failure). -/
def findIdxAux {α : Type} (p : α → Bool) : List α → Option Nat
  | [] => none
  | a :: t => if p a then some 0 else (findIdxAux p t).map (fun i => i + 1)

/-- `Array.prototype.findIndex`: first index satisfying `p`, else `-1`. -/
def findIndexJS {α : Type} (p : α → Bool) (l : List α) : Int :=
  match findIdxAux p l with
  | some i => (i : Int)
  | none => -1

/-- `array.splice(n, 1)` for an in-range index: removes the element at
position `n` (identity when `n` is past the end, as in JS). -/
def removeAtList {α : Type} : List α → Nat → List α
  | [], _ => []
  | _ :: t, 0 => t
  | a :: t, n + 1 => a :: removeAtList t n

/-- `array.splice(n, 0, x)`: inserts `x` at position `n`, clamping the
position to the array length (as JS does). -/
def insertAtList {α : Type} : List α → Nat → α → List α
  | l, 0, x => x :: l
  | [], _ + 1, x => [x]
  | a :: t, n + 1, x => a :: insertAtList t n x

/-- Clamping of a (possibly negative) JS `splice` start argument. -/
def jsSpliceStart (len : Nat) (start : Int) : Nat :=
  if start < 0 then len - (-start).toNat else min start.toNat len

/-! ### Data model -/

/-- The duck-typed `artists` field of a track coming from the catalog:
sometimes a bare scalar, sometimes a sequence (renderer.js line 933
normalizes it). -/
inductive ArtistField where
  | scalar (name : String)
  | seq (names : List String)
deriving DecidableEq

/-- Whether the artists field is a sequence (`Array.isArray`). -/
def ArtistField.isSeq : ArtistField → Bool
  | .scalar _ => false
  | .seq _ => true

/-- A playable track; only the fields the playback subsystem reads. -/
structure Track where
  id : String
  title : String
  artists : ArtistField
deriving DecidableEq

/-- An album/playlist passed as `sourcePlaylist`: its track list may live in
a `tracks` or a `songs` field. -/
structure Playlist where
  tracks : Option (List Track)
  songs : Option (List Track)
deriving DecidableEq

/-- `sourcePlaylist.tracks || sourcePlaylist.songs || []`
(renderer.js line 819; arrays are always truthy in JS). -/
def Playlist.tracklist (p : Playlist) : List Track :=
  match p.tracks with
  | some l => l
  | none => match p.songs with
    | some l => l
    | none => []

/-- The mutable state of the `QueueManager` class (renderer.js lines
791-808), minus the DOM handles. -/
structure QueueState where
  songQueue : List Track
  currentSongIndex : Int
  upNextSongs : List Track
  prefetchedUrl : Option String
  prefetchedId : Option String
  playedHistory : List String
deriving DecidableEq

/-- The initial `QueueManager` state built by the constructor. -/
def QueueState.initial : QueueState :=
  { songQueue := [], currentSongIndex := -1, upNextSongs := [],
    prefetchedUrl := none, prefetchedId := none, playedHistory := [] }

/-- `getCurrentItem()` (renderer.js line 846):
`this.songQueue[this.currentSongIndex] || null`. -/
def QueueState.getCurrentItem (s : QueueState) : Option Track :=
  if s.currentSongIndex < 0 then none
  else s.songQueue.get? s.currentSongIndex.toNat

/-! ### History Tracker -/

/-- `addToHistory(songId)` (renderer.js lines 810-815): drop any existing
occurrence, prepend, cap at 50 by popping the tail.  A falsy (empty) id is
ignored by the guard on line 811. -/
def addToHistory (history : List String) (songId : String) : List String :=
  if songId = "" then history
  else
    let filtered := history.filter (fun id => id != songId)
    let h := songId :: filtered
    if h.length > 50 then h.dropLast else h

/-! ### Queue operations -/

/-- `setSongForPlayback(song, sourcePlaylist)` (renderer.js lines 817-831). -/
def QueueState.setSongForPlayback (s : QueueState) (song : Track)
    (sourcePlaylist : Option Playlist) : QueueState :=
  match sourcePlaylist with
  | some p =>
      let tracklist := p.tracklist
      { s with songQueue := tracklist,
               currentSongIndex := findIndexJS (fun t => t.id == song.id) tracklist }
  | none =>
      let existingIndex := findIndexJS (fun t => t.id == song.id) s.songQueue
      if existingIndex ≠ -1 then { s with currentSongIndex := existingIndex }
      else
        let q := insertAtList s.songQueue
          (jsSpliceStart s.songQueue.length (s.currentSongIndex + 1)) song
        { s with songQueue := q, currentSongIndex := s.currentSongIndex + 1 }

/-- `addSongToQueue(song)` (renderer.js lines 833-838): push to the end;
if the queue was empty and unselected, the triggered `playSong` call runs
`setSongForPlayback(song, null)` synchronously (its body up to the first
`await`), provided the song passes `playSong`'s `!song.id` guard. -/
def QueueState.addSongToQueue (s : QueueState) (song : Track) : QueueState :=
  let s1 := { s with songQueue := s.songQueue ++ [song] }
  if s.currentSongIndex = -1 ∧ s1.songQueue.length = 1 ∧ song.id ≠ "" then
    s1.setSongForPlayback song none
  else s1

/-- `addSongToPlayNext(song)` (renderer.js lines 840-844): insert right
after the cursor, cursor unchanged. -/
def QueueState.addSongToPlayNext (s : QueueState) (song : Track) : QueueState :=
  let q := insertAtList s.songQueue
    (jsSpliceStart s.songQueue.length (s.currentSongIndex + 1)) song
  { s with songQueue := q }

/-- `playNextOrUpNext()` (renderer.js lines 848-863), restricted to its
queue-state effect (the `playAudioAndUpdateUI` call and the token increment
belong to the coordinator model below). -/
def QueueState.playNextOrUpNext (s : QueueState) : QueueState :=
  if s.currentSongIndex < (s.songQueue.length : Int) - 1 then
    { s with currentSongIndex := s.currentSongIndex + 1 }
  else
    match s.upNextSongs with
    | nextSongToPlay :: rest =>
        { s with upNextSongs := rest,
                 songQueue := s.songQueue ++ [nextSongToPlay],
                 currentSongIndex := s.currentSongIndex + 1 }
    | [] => s

/-- `previous()` (renderer.js lines 867-879), queue-state effect; the
`audioPlayer.currentTime > 3` test is passed in as a boolean. -/
def QueueState.previous (s : QueueState) (currentTimeGt3 : Bool) : QueueState :=
  if s.songQueue.length = 0 then s
  else if currentTimeGt3 then s
  else if s.currentSongIndex > 0 then
    { s with currentSongIndex := s.currentSongIndex - 1 }
  else s

/-- `removeItem(index)` (renderer.js lines 881-895). -/
def QueueState.removeItem (s : QueueState) (index : Int) : QueueState :=
  if index < 0 ∨ (s.songQueue.length : Int) ≤ index then s
  else
    let isRemovingCurrent := index = s.currentSongIndex
    let s1 := { s with songQueue := removeAtList s.songQueue index.toNat }
    if isRemovingCurrent then
      ({ s1 with currentSongIndex := s1.currentSongIndex - 1 }).playNextOrUpNext
    else if index < s.currentSongIndex then
      { s1 with currentSongIndex := s1.currentSongIndex - 1 }
    else s1

/-- `reorderItem(oldIndex, newIndex)` (renderer.js lines 897-904).  The
cursor is recomputed by `findIndex` only under `if (currentSongId)`
(line 902), a JS truthiness test that is false both for `undefined` (no
current item) and for an empty-string id.  The indices come from the
Sortable drag handler and are in range; for an out-of-range `oldIndex`
the JS code would splice `undefined` into the array, so the model is only
quoted on in-range indices (see the validity side conditions of the
theorems below). -/
def QueueState.reorderItem (s : QueueState) (oldIndex newIndex : Nat) : QueueState :=
  if oldIndex = newIndex then s
  else
    let currentSongId := s.getCurrentItem.map Track.id
    match s.songQueue.get? oldIndex with
    | some movedItem =>
        let q1 := removeAtList s.songQueue oldIndex
        let q2 := insertAtList q1 newIndex movedItem
        let s1 := { s with songQueue := q2 }
        match currentSongId with
        | some cid =>
            if cid = "" then s1
            else { s1 with currentSongIndex := findIndexJS (fun t => t.id == cid) q2 }
        | none => s1
    | none =>
        let s1 := { s with songQueue := removeAtList s.songQueue oldIndex }
        s1

/-- `playFromUpNext(index)` (renderer.js lines 1002-1013), queue-state
effect: move the chosen recommendation to the end of the queue and select
it. -/
def QueueState.playFromUpNext (s : QueueState) (index : Nat) : QueueState :=
  match s.upNextSongs.get? index with
  | some songToPlay =>
      { s with songQueue := s.songQueue ++ [songToPlay],
               upNextSongs := removeAtList s.upNextSongs index,
               currentSongIndex := (s.songQueue.length : Int) }
  | none => s

/-- Normalization of the artists field (renderer.js line 933):
`Array.isArray(song.artists) ? song.artists : [song.artists]`. -/
def normalizeArtists : ArtistField → ArtistField
  | .seq l => .seq l
  | .scalar a => .seq [a]

/-- `fetchUpNext()` (renderer.js lines 921-941).  The settled value of the
awaited `getUpNexts` call is passed in: `.error` models a rejected promise,
`.ok none` a fulfilled non-array value (the `Array.isArray` test), and
`.ok (some l)` a fulfilled array whose entries may be null. -/
def QueueState.fetchUpNext (s : QueueState)
    (response : Except Unit (Option (List (Option Track)))) : QueueState :=
  match s.getCurrentItem with
  | none => { s with upNextSongs := [] }
  | some _ =>
    match response with
    | .error _ => { s with upNextSongs := [] }
    | .ok upNexts =>
        let arr := upNexts.getD []
        let currentQueueIds := s.songQueue.map Track.id
        let kept := (arr.filterMap (fun o => o)).filter
          (fun song => !(jsIncludes s.playedHistory song.id)
            && !(jsIncludes currentQueueIds song.id))
        { s with upNextSongs :=
            kept.map (fun song => { song with artists := normalizeArtists song.artists }) }

/-! ### Playback Request Coordinator

`playSong` (renderer.js lines 716-726) captures a fresh token with
`++latestPlayRequestToken` and calls `playAudioAndUpdateUI(song, token)`
(lines 667-714).  The body of `playAudioAndUpdateUI` runs synchronously up
to `await window.electronAPI.getAudioStream(song.id)`; everything after
that `await` is the continuation modelled by `completePlayRequest`, taking
the settled outcome of the promise as an argument.  The entry check on
line 670 always passes at issue time because the token is captured and the
call made in the same synchronous step. -/

/-- The part of the renderer's mutable state touched by the play-request
protocol.  `appliedTokens` is a ghost trace recording which tokens reached
the apply phase (set the audio source, updated the now-playing metadata,
recorded history, and triggered prefetch/recommendation refresh);
`notifications` records the messages passed to `showNotification`. -/
structure PlayerState where
  latestPlayRequestToken : Nat
  audioSrc : Option String
  nowPlayingTitle : Option String
  playedHistory : List String
  prefetchedUrl : Option String
  prefetchedId : Option String
  notifications : List String
  appliedTokens : List Nat
deriving DecidableEq

/-- How the awaited `getAudioStream` promise settled: fulfilled with a
value (`null`/`undefined` modelled as `none`, the empty string is also
falsy) or rejected with an error message. -/
inductive ResolveOutcome where
  | resolved (url : Option String)
  | rejected (msg : String)
deriving DecidableEq

/-- Continuation of `playAudioAndUpdateUI` (renderer.js lines 680-713)
after the awaited stream resolution settles.  A rejection jumps straight
to the `catch` block (lines 704-708) — before the token re-check on line
682 — whose `err.message !== "Stale request"` test swallows only messages
equal to that sentinel and which shows
`err.message || "Could not play song."`, substituting the fallback for a
falsy (empty) message.  A fulfilled value is first checked against the
current token (stale requests throw the silently swallowed
`"Stale request"`), then for truthiness; a usable URL clears the prefetch
cache, sets the audio source and now-playing metadata, records history and
fires the prefetch/recommendation side effects. -/
def completePlayRequest (s : PlayerState) (song : Track) (token : Nat)
    (outcome : ResolveOutcome) : PlayerState :=
  match outcome with
  | .rejected msg =>
      if msg = "Stale request" then s
      else
        { s with notifications :=
            (if msg = "" then "Could not play song." else msg) :: s.notifications }
  | .resolved url =>
      if token ≠ s.latestPlayRequestToken then s
      else
        match url with
        | none =>
            { s with notifications := "Could not fetch stream URL" :: s.notifications }
        | some u =>
            if u = "" then
              { s with notifications := "Could not fetch stream URL" :: s.notifications }
            else
              { s with
                prefetchedUrl := none,
                prefetchedId := none,
                audioSrc := some u,
                nowPlayingTitle := some song.title,
                playedHistory := addToHistory s.playedHistory song.id,
                appliedTokens := token :: s.appliedTokens }

/-- `const playToken = ++latestPlayRequestToken` (renderer.js line 723):
capture a fresh token by incrementing the global counter. -/
def issuePlayRequest (s : PlayerState) : PlayerState × Nat :=
  ({ s with latestPlayRequestToken := s.latestPlayRequestToken + 1 },
   s.latestPlayRequestToken + 1)

/-- Issue `n` play requests back to back (all tokens captured before any
resolution completes). -/
def issueN (s : PlayerState) : Nat → PlayerState
  | 0 => s
  | n + 1 => (issuePlayRequest (issueN s n)).1

/-- A pending resolution: the captured token, the requested song, and the
outcome its stream resolution will settle with. -/
abbrev PlayEvent := Nat × Track × ResolveOutcome

/-- Run one completion. -/
def completionStep (s : PlayerState) (e : PlayEvent) : PlayerState :=
  completePlayRequest s e.2.1 e.1 e.2.2

/-- Run the continuations of a batch of play requests in the given
completion order (single-threaded: each continuation runs atomically). -/
def runCompletions (s : PlayerState) (events : List PlayEvent) : PlayerState :=
  events.foldl completionStep s

/-- The batch of pending resolutions created by issuing `n` requests on top
of token `b`: tokens `b+1, …, b+n`, with the requested song and the
resolution outcome of token `t` given by `song t` and `out t`. -/
def requestEvents (b n : Nat) (song : Nat → Track) (out : Nat → ResolveOutcome) :
    List PlayEvent :=
  (List.range n).map (fun i => (b + 1 + i, song (b + 1 + i), out (b + 1 + i)))

/-! ### Prefetch Cache -/

/-- `getPrefetchedUrl(songId)` (renderer.js line 918).  Note: this method
has no call site anywhere in the repository. -/
def getPrefetchedUrl (s : PlayerState) (songId : String) : Option String :=
  if s.prefetchedId = some songId then s.prefetchedUrl else none

/-- Where `playAudioAndUpdateUI` gets the stream URL from. -/
inductive StreamSource where
  | resolver (trackId : String)
  | cache (url : String)
deriving DecidableEq

/-- From the source (renderer.js line 680): the coordinator always calls
`window.electronAPI.getAudioStream(song.id)`; the prefetch cache is never
consulted. -/
def requestStreamSource (s : PlayerState) (song : Track) : StreamSource :=
  StreamSource.resolver song.id

/-- Modelled from the spec's words (§4.2: "requests a stream URL (from
Prefetch Cache if it matches the target track id, else from the Stream
Resolver)"), for comparison with `requestStreamSource` only. -/
def requestStreamSourceSpec (s : PlayerState) (song : Track) : StreamSource :=
  match getPrefetchedUrl s song.id with
  | some url => StreamSource.cache url
  | none => StreamSource.resolver song.id

/-! ### Preload validation layer (src/preload.js) -/

/-- A JavaScript value passed as `videoId`: a string, or anything else. -/
inductive JsInput where
  | str (s : String)
  | nonString
deriving DecidableEq

/-- A character of the class `[a-zA-Z0-9_-]`. -/
def allowedIdChar (c : Char) : Bool :=
  c.isAlpha || c.isDigit || c = '_' || c = '-'

/-- `isValidVideoId` (preload.js lines 18-21): a string of exactly 11
characters matching `/^[a-zA-Z0-9_-]+$/`. -/
def isValidVideoId : JsInput → Bool
  | .str s => s.length = 11 && s.toList.all allowedIdChar
  | .nonString => false

/-- The observable behaviour of an exposed API function: either an
`ipcRenderer.invoke` on a channel (reaching the external resolver/catalog)
or a locally resolved value with no external call. -/
inductive ApiCall (α : Type) where
  | invoke (channel : String) (videoId : JsInput)
  | resolve (value : α)
deriving DecidableEq

/-- `getAudioStream` (preload.js lines 82-87). -/
def getAudioStream (videoId : JsInput) : ApiCall (Option String) :=
  if isValidVideoId videoId then ApiCall.invoke "get-audio-stream" videoId
  else ApiCall.resolve none

/-- `getVideoStream` (preload.js lines 94-99). -/
def getVideoStream (videoId : JsInput) : ApiCall (Option String) :=
  if isValidVideoId videoId then ApiCall.invoke "get-video-stream" videoId
  else ApiCall.resolve none

/-- `getUpNexts` (preload.js lines 67-72). -/
def getUpNexts (videoId : JsInput) (countryCode : String) : ApiCall (List Track) :=
  if isValidVideoId videoId then ApiCall.invoke "get-up-nexts" videoId
  else ApiCall.resolve []

/-! ### Derived notions used by the specification's claims -/

/-- The queue invariant of spec §3: the cursor is `-1` (no selection) or a
valid index into the sequence. -/
def cursorInvariant (s : QueueState) : Prop :=
  s.currentSongIndex = -1 ∨
    (0 ≤ s.currentSongIndex ∧ s.currentSongIndex < (s.songQueue.length : Int))

/-- The queue operations enumerated by the spec (§4.1 and §4.5), with the
source method each maps to. -/
inductive QueueOp where
  | setForPlayback (song : Track) (sourcePlaylist : Option Playlist)
  | append (song : Track)
  | insertNext (song : Track)
  | advance
  | retreat (currentTimeGt3 : Bool)
  | removeAt (index : Int)
  | reorder (oldIndex newIndex : Nat)
  | playFromRecommendations (index : Nat)

/-- Dispatch of a spec operation to the corresponding `QueueManager`
method. -/
def QueueState.applyOp (s : QueueState) : QueueOp → QueueState
  | .setForPlayback song p => s.setSongForPlayback song p
  | .append song => s.addSongToQueue song
  | .insertNext song => s.addSongToPlayNext song
  | .advance => s.playNextOrUpNext
  | .retreat gt3 => s.previous gt3
  | .removeAt index => s.removeItem index
  | .reorder oldIndex newIndex => s.reorderItem oldIndex newIndex
  | .playFromRecommendations index => s.playFromUpNext index

/-- Domain condition: `reorder` indices come from the Sortable drag
handler and are always in range of the rendered queue (out of range, the
JS `splice` would insert `undefined`, outside this model). -/
def QueueOp.valid (op : QueueOp) (s : QueueState) : Prop :=
  match op with
  | .reorder oldIndex newIndex =>
      oldIndex < s.songQueue.length ∧ newIndex < s.songQueue.length
  | _ => True

/-- Equality of all coordinator state except the notification log. -/
def SameCore (s t : PlayerState) : Prop :=
  s.latestPlayRequestToken = t.latestPlayRequestToken ∧
  s.audioSrc = t.audioSrc ∧
  s.nowPlayingTitle = t.nowPlayingTitle ∧
  s.playedHistory = t.playedHistory ∧
  s.prefetchedUrl = t.prefetchedUrl ∧
  s.prefetchedId = t.prefetchedId ∧
  s.appliedTokens = t.appliedTokens

instance (s t : PlayerState) : Decidable (SameCore s t) := by
  unfold SameCore
  infer_instance

instance (op : QueueOp) (s : QueueState) : Decidable (op.valid s) := by
  unfold QueueOp.valid
  cases op <;> infer_instance

instance (s : QueueState) : Decidable (cursorInvariant s) := by
  unfold cursorInvariant
  infer_instance

/-! ### Lemmas about the JS array helpers -/

theorem jsIncludes_iff (l : List String) (x : String) :
    jsIncludes l x = true ↔ x ∈ l := by
  induction l with
  | nil => simp [jsIncludes]
  | cons a t ih =>
      simp only [jsIncludes, Bool.or_eq_true, beq_iff_eq, ih, List.mem_cons]
      constructor
      · rintro (h | h)
        · exact Or.inl h.symm
        · exact Or.inr h
      · rintro (h | h)
        · exact Or.inl h.symm
        · exact Or.inr h

theorem findIdxAux_get {α : Type} (p : α → Bool) :
    ∀ (l : List α) (i : Nat), findIdxAux p l = some i →
      ∃ h : i < l.length, p (l.get ⟨i, h⟩) = true := by
  intro l
  induction l with
  | nil => intro i h; simp [findIdxAux] at h
  | cons a t ih =>
      intro i h
      by_cases hp : p a = true
      · simp [findIdxAux, hp] at h
        subst h
        exact ⟨Nat.succ_pos _, hp⟩
      · simp [findIdxAux, hp] at h
        obtain ⟨j, hj, rfl⟩ := h
        obtain ⟨hlt, hpj⟩ := ih j hj
        exact ⟨Nat.succ_lt_succ hlt, hpj⟩

theorem findIdxAux_min {α : Type} (p : α → Bool) :
    ∀ (l : List α) (i : Nat), findIdxAux p l = some i →
      ∀ j, j < i → ∃ hj : j < l.length, p (l.get ⟨j, hj⟩) = false := by
  intro l
  induction l with
  | nil => intro i h; simp [findIdxAux] at h
  | cons a t ih =>
      intro i h j hj
      by_cases hp : p a = true
      · exfalso
        simp [findIdxAux, hp] at h
        omega
      · simp [findIdxAux, hp] at h
        obtain ⟨k, hk, rfl⟩ := h
        match j with
        | 0 =>
            exact ⟨Nat.succ_pos _, by simpa using hp⟩
        | j' + 1 =>
            obtain ⟨hlt, hpj⟩ := ih k hk j' (by omega)
            exact ⟨Nat.succ_lt_succ hlt, hpj⟩

theorem findIdxAux_of_mem {α : Type} (p : α → Bool) :
    ∀ (l : List α) (x : α), x ∈ l → p x = true →
      ∃ i, findIdxAux p l = some i := by
  intro l
  induction l with
  | nil => intro x hx; simp at hx
  | cons a t ih =>
      intro x hx hp
      by_cases hpa : p a = true
      · exact ⟨0, by simp [findIdxAux, hpa]⟩
      · rcases List.mem_cons.mp hx with rfl | hx'
        · exact absurd hp hpa
        · obtain ⟨i, hi⟩ := ih x hx' hp
          exact ⟨i + 1, by simp [findIdxAux, hpa, hi]⟩

theorem findIdxAux_eq_none_iff {α : Type} (p : α → Bool) (l : List α) :
    findIdxAux p l = none ↔ ∀ x ∈ l, p x = false := by
  induction l with
  | nil => simp [findIdxAux]
  | cons a t ih =>
      by_cases hp : p a = true
      · simp [findIdxAux, hp]
      · have hpa : p a = false := by simpa using hp
        simp [findIdxAux, hp, Option.map_eq_none', ih, hpa]

theorem findIndexJS_cases {α : Type} (p : α → Bool) (l : List α) :
    findIndexJS p l = -1 ∨
      (0 ≤ findIndexJS p l ∧ findIndexJS p l < (l.length : Int)) := by
  cases h : findIdxAux p l with
  | none =>
      have : findIndexJS p l = -1 := by simp [findIndexJS, h]
      exact Or.inl this
  | some i =>
      have heq : findIndexJS p l = (i : Int) := by simp [findIndexJS, h]
      obtain ⟨hlt, _⟩ := findIdxAux_get p l i h
      rw [heq]
      exact Or.inr ⟨Int.ofNat_nonneg i, by exact_mod_cast hlt⟩

theorem findIndexJS_of_mem {α : Type} (p : α → Bool) (l : List α) (x : α)
    (hx : x ∈ l) (hp : p x = true) :
    ∃ (i : Nat) (h : i < l.length),
      findIndexJS p l = (i : Int) ∧ p (l.get ⟨i, h⟩) = true := by
  obtain ⟨i, hi⟩ := findIdxAux_of_mem p l x hx hp
  obtain ⟨hlt, hpi⟩ := findIdxAux_get p l i hi
  exact ⟨i, hlt, by simp [findIndexJS, hi], hpi⟩

theorem removeAtList_length {α : Type} :
    ∀ (l : List α) (n : Nat), n < l.length →
      (removeAtList l n).length + 1 = l.length := by
  intro l
  induction l with
  | nil => intro n h; simp at h
  | cons a t ih =>
      intro n h
      match n with
      | 0 => simp [removeAtList]
      | n' + 1 =>
          have := ih n' (by simpa using Nat.lt_of_succ_lt_succ h)
          simp [removeAtList]
          omega

theorem removeAtList_get?_lt {α : Type} :
    ∀ (l : List α) (n j : Nat), j < n →
      (removeAtList l n).get? j = l.get? j := by
  intro l
  induction l with
  | nil => intro n j _; rfl
  | cons a t ih =>
      intro n j hj
      match n, j with
      | n' + 1, 0 => rfl
      | n' + 1, j' + 1 => exact ih n' j' (by omega)

theorem removeAtList_get?_ge {α : Type} :
    ∀ (l : List α) (n j : Nat), n ≤ j →
      (removeAtList l n).get? j = l.get? (j + 1) := by
  intro l
  induction l with
  | nil => intro n j _; rfl
  | cons a t ih =>
      intro n j hj
      match n, j with
      | 0, j => rfl
      | n' + 1, j' + 1 => exact ih n' j' (by omega)

theorem removeAtList_cons_perm {α : Type} :
    ∀ (l : List α) (n : Nat) (x : α), l.get? n = some x →
      l.Perm (x :: removeAtList l n) := by
  intro l
  induction l with
  | nil => intro n x h; simp at h
  | cons a t ih =>
      intro n x h
      match n with
      | 0 =>
          have hx : a = x := by
            have h' : some a = some x := h
            injection h'
          subst hx
          exact List.Perm.refl _
      | n' + 1 =>
          have h1 : (a :: t).Perm (a :: (x :: removeAtList t n')) :=
            List.Perm.cons a (ih n' x h)
          exact h1.trans (List.Perm.swap x a _)

theorem insertAtList_perm {α : Type} :
    ∀ (l : List α) (n : Nat) (x : α), (insertAtList l n x).Perm (x :: l) := by
  intro l
  induction l with
  | nil =>
      intro n x
      match n with
      | 0 => simp [insertAtList]
      | n' + 1 => simp [insertAtList]
  | cons a t ih =>
      intro n x
      match n with
      | 0 => simp [insertAtList]
      | n' + 1 =>
          have h1 : (a :: insertAtList t n' x).Perm (a :: (x :: t)) :=
            List.Perm.cons a (ih n' x)
          exact h1.trans (List.Perm.swap x a _)

theorem insertAtList_length {α : Type} (l : List α) (n : Nat) (x : α) :
    (insertAtList l n x).length = l.length + 1 :=
  (insertAtList_perm l n x).length_eq

theorem jsSpliceStart_le (len : Nat) (start : Int) :
    jsSpliceStart len start ≤ len := by
  unfold jsSpliceStart
  split
  · exact Nat.sub_le _ _
  · exact Nat.min_le_right _ _

theorem get?_concat_length {α : Type} :
    ∀ (l : List α) (x : α), (l ++ [x]).get? l.length = some x := by
  intro l
  induction l with
  | nil => intro x; rfl
  | cons a t ih => intro x; exact ih x

/-! ### Coordinator lemmas -/

theorem sameCore_refl (s : PlayerState) : SameCore s s :=
  ⟨rfl, rfl, rfl, rfl, rfl, rfl, rfl⟩

theorem sameCore_trans {s t u : PlayerState} (h1 : SameCore s t) (h2 : SameCore t u) :
    SameCore s u := by
  obtain ⟨a1, a2, a3, a4, a5, a6, a7⟩ := h1
  obtain ⟨b1, b2, b3, b4, b5, b6, b7⟩ := h2
  exact ⟨a1.trans b1, a2.trans b2, a3.trans b3, a4.trans b4,
         a5.trans b5, a6.trans b6, a7.trans b7⟩

theorem completePlayRequest_latest (s : PlayerState) (song : Track) (tok : Nat)
    (out : ResolveOutcome) :
    (completePlayRequest s song tok out).latestPlayRequestToken
      = s.latestPlayRequestToken := by
  rcases out with url | msg
  · by_cases htok : tok ≠ s.latestPlayRequestToken
    · simp [completePlayRequest, htok]
    · rcases url with _ | u
      · simp [completePlayRequest, htok]
      · by_cases hu : u = "" <;> simp [completePlayRequest, htok, hu]
  · by_cases hm : msg = "Stale request" <;> simp [completePlayRequest, hm]

theorem completionStep_stale (s : PlayerState) (e : PlayEvent)
    (h : e.1 ≠ s.latestPlayRequestToken) : SameCore (completionStep s e) s := by
  obtain ⟨tok, song, out⟩ := e
  rcases out with url | msg
  · have heq : completionStep s (tok, song, ResolveOutcome.resolved url) = s := by
      simp only [completionStep, completePlayRequest]
      rw [if_pos h]
    rw [heq]
    exact sameCore_refl s
  · by_cases hm : msg = "Stale request"
    · have heq : completionStep s (tok, song, ResolveOutcome.rejected msg) = s := by
        simp only [completionStep, completePlayRequest]
        rw [if_pos hm]
      rw [heq]
      exact sameCore_refl s
    · have heq : completionStep s (tok, song, ResolveOutcome.rejected msg)
          = { s with notifications :=
              (if msg = "" then "Could not play song." else msg) :: s.notifications } := by
        simp only [completionStep, completePlayRequest]
        rw [if_neg hm]
      rw [heq]
      exact ⟨rfl, rfl, rfl, rfl, rfl, rfl, rfl⟩

theorem completionStep_congr {s t : PlayerState} (e : PlayEvent) (h : SameCore s t) :
    SameCore (completionStep s e) (completionStep t e) := by
  obtain ⟨h1, h2, h3, h4, h5, h6, h7⟩ := h
  obtain ⟨tok, song, out⟩ := e
  rcases out with url | msg
  · by_cases htok : tok = s.latestPlayRequestToken
    · have htok' : tok = t.latestPlayRequestToken := by rw [← h1]; exact htok
      simp only [completionStep, completePlayRequest]
      rw [if_neg (not_not_intro htok), if_neg (not_not_intro htok')]
      rcases url with _ | u
      · exact ⟨h1, h2, h3, h4, h5, h6, h7⟩
      · dsimp only
        by_cases hu : u = ""
        · rw [if_pos hu, if_pos hu]
          exact ⟨h1, h2, h3, h4, h5, h6, h7⟩
        · rw [if_neg hu, if_neg hu]
          exact ⟨h1, rfl, rfl, by rw [h4], rfl, rfl, by rw [h7]⟩
    · have htok' : tok ≠ t.latestPlayRequestToken := by rw [← h1]; exact htok
      simp only [completionStep, completePlayRequest]
      rw [if_pos htok, if_pos htok']
      exact ⟨h1, h2, h3, h4, h5, h6, h7⟩
  · by_cases hm : msg = "Stale request"
    · simp only [completionStep, completePlayRequest]
      rw [if_pos hm, if_pos hm]
      exact ⟨h1, h2, h3, h4, h5, h6, h7⟩
    · simp only [completionStep, completePlayRequest]
      rw [if_neg hm, if_neg hm]
      exact ⟨h1, h2, h3, h4, h5, h6, h7⟩

theorem runCompletions_latest (l : List PlayEvent) :
    ∀ s : PlayerState,
      (runCompletions s l).latestPlayRequestToken = s.latestPlayRequestToken := by
  induction l with
  | nil => intro s; rfl
  | cons e rest ih =>
      intro s
      show (runCompletions (completionStep s e) rest).latestPlayRequestToken = _
      rw [ih]
      exact completePlayRequest_latest s e.2.1 e.1 e.2.2

theorem runCompletions_stale (l : List PlayEvent) :
    ∀ s : PlayerState, (∀ e ∈ l, e.1 ≠ s.latestPlayRequestToken) →
      SameCore (runCompletions s l) s := by
  induction l with
  | nil => intro s _; exact sameCore_refl s
  | cons e rest ih =>
      intro s hl
      have he : e.1 ≠ s.latestPlayRequestToken := hl e (List.mem_cons_self e rest)
      have hlat : (completionStep s e).latestPlayRequestToken = s.latestPlayRequestToken :=
        completePlayRequest_latest s e.2.1 e.1 e.2.2
      have hrest : ∀ e' ∈ rest, e'.1 ≠ (completionStep s e).latestPlayRequestToken := by
        intro e' he'
        rw [hlat]
        exact hl e' (List.mem_cons_of_mem e he')
      exact sameCore_trans (ih (completionStep s e) hrest) (completionStep_stale s e he)

theorem issueN_latest (s : PlayerState) :
    ∀ n : Nat, (issueN s n).latestPlayRequestToken = s.latestPlayRequestToken + n := by
  intro n
  induction n with
  | zero => rfl
  | succ n ih =>
      show (issueN s n).latestPlayRequestToken + 1 = _
      omega

/-! ### Claim C1 -/

/-- C1 counterexample: a play request whose captured token (1) is stale
(the global token is already 2) but whose resolver call rejects surfaces
its error message via `showNotification` — `playAudioAndUpdateUI`'s token
re-check (renderer.js line 682) sits after the `await`, so a rejection
skips it and reaches the generic `catch`.  This refutes the claim's
"every request whose captured token differs … is discarded with no UI
mutation and no error surfaced". -/
theorem c1_counterexample :
    (completePlayRequest (PlayerState.mk 2 none none [] none none [] [])
        (Track.mk "ooooooooooo" "Old Song" (ArtistField.seq []))
        1 (ResolveOutcome.rejected "spawn yt-dlp failed")).notifications
      = ["spawn yt-dlp failed"] ∧ (1 : Nat) ≠ 2 := by
  constructor <;> decide

/-- C1 (amended): for every batch of play requests all issued before any
resolution completes (tokens `b+1 … b+n`) and every completion order,
the now-playing state (audio source, now-playing metadata, history,
prefetch cache, applied-token trace) after all completions equals the
state obtained by applying only the final token's completion; stale
requests whose resolution fulfills are complete no-ops, and a rejection
is swallowed silently only when its message is exactly the internal
`"Stale request"` sentinel — any other rejection, stale or not, prepends
its message (or the fallback `"Could not play song."` when the message is
empty) to the notification log and mutates nothing else. -/
theorem c1_amended_last_token_wins (s0 : PlayerState) (b n : Nat)
    (hb : s0.latestPlayRequestToken = b)
    (song : Nat → Track) (out : Nat → ResolveOutcome)
    (events : List PlayEvent)
    (hmem : ∀ e ∈ events, e ∈ requestEvents b n song out)
    (hfin : (b + n, song (b + n), out (b + n)) ∈ events)
    (hnodup : (events.map (fun e => e.1)).Nodup)
    (s : PlayerState) (sg : Track) (tok : Nat) (url : Option String) (msg : String)
    (hstale : tok ≠ s.latestPlayRequestToken) :
    SameCore (runCompletions (issueN s0 n) events)
      (completePlayRequest (issueN s0 n) (song (b + n)) (b + n) (out (b + n))) ∧
    completePlayRequest s sg tok (ResolveOutcome.resolved url) = s ∧
    completePlayRequest s sg tok (ResolveOutcome.rejected "Stale request") = s ∧
    (msg ≠ "Stale request" →
      completePlayRequest s sg tok (ResolveOutcome.rejected msg)
        = { s with notifications :=
            (if msg = "" then "Could not play song." else msg) :: s.notifications }) := by
  refine ⟨?_, ?_, ?_, ?_⟩
  · have hlat : (issueN s0 n).latestPlayRequestToken = b + n := by
      rw [issueN_latest, hb]
    obtain ⟨l1, l2, rfl⟩ := List.append_of_mem hfin
    have hmap : ((l1 ++ (b + n, song (b + n), out (b + n)) :: l2).map (fun e => e.1))
        = l1.map (fun e => e.1) ++ (b + n) :: l2.map (fun e => e.1) := by
      simp
    rw [hmap] at hnodup
    have hnotmem : (b + n) ∉ l1.map (fun e => e.1) ++ l2.map (fun e => e.1) :=
      (List.nodup_cons.mp (List.nodup_middle.mp hnodup)).1
    have hl1 : ∀ e ∈ l1, e.1 ≠ b + n := by
      intro e he hEq
      exact hnotmem (List.mem_append_left _ (hEq ▸ List.mem_map_of_mem _ he))
    have hl2 : ∀ e ∈ l2, e.1 ≠ b + n := by
      intro e he hEq
      exact hnotmem (List.mem_append_right _ (hEq ▸ List.mem_map_of_mem _ he))
    have hrun : runCompletions (issueN s0 n)
          (l1 ++ (b + n, song (b + n), out (b + n)) :: l2)
        = runCompletions
            (completionStep (runCompletions (issueN s0 n) l1)
              (b + n, song (b + n), out (b + n))) l2 := by
      simp [runCompletions, List.foldl_append]
    rw [hrun]
    have hcore1 : SameCore (runCompletions (issueN s0 n) l1) (issueN s0 n) :=
      runCompletions_stale l1 (issueN s0 n) (by intro e he; rw [hlat]; exact hl1 e he)
    have hcore2 : SameCore
        (completionStep (runCompletions (issueN s0 n) l1)
          (b + n, song (b + n), out (b + n)))
        (completionStep (issueN s0 n) (b + n, song (b + n), out (b + n))) :=
      completionStep_congr _ hcore1
    have hlat2 : (completionStep (runCompletions (issueN s0 n) l1)
          (b + n, song (b + n), out (b + n))).latestPlayRequestToken = b + n := by
      have h1 := completePlayRequest_latest (runCompletions (issueN s0 n) l1)
        (song (b + n)) (b + n) (out (b + n))
      have h2 := runCompletions_latest l1 (issueN s0 n)
      exact h1.trans (h2.trans hlat)
    have hcore3 : SameCore
        (runCompletions
          (completionStep (runCompletions (issueN s0 n) l1)
            (b + n, song (b + n), out (b + n))) l2)
        (completionStep (runCompletions (issueN s0 n) l1)
          (b + n, song (b + n), out (b + n))) :=
      runCompletions_stale l2 _ (by intro e he; rw [hlat2]; exact hl2 e he)
    exact sameCore_trans hcore3 hcore2
  · simp only [completePlayRequest]
    rw [if_pos hstale]
  · simp [completePlayRequest]
  · intro hm
    simp only [completePlayRequest]
    rw [if_neg hm]

/-- C1 witness: two requests (tokens 1 and 2) issued back to back; the
stale request's resolver rejects, the fresh one fulfills, and the stale
completion runs last. -/
theorem c1_amended_last_token_wins_witness :
    (SameCore (runCompletions
        (issueN (PlayerState.mk 0 none none [] none none [] []) 2)
        [(2, Track.mk "bbbbbbbbbbb" "B" (ArtistField.seq []),
            ResolveOutcome.resolved (some "urlB")),
         (1, Track.mk "aaaaaaaaaaa" "A" (ArtistField.seq []),
            ResolveOutcome.rejected "boom")])
      (completePlayRequest (issueN (PlayerState.mk 0 none none [] none none [] []) 2)
        ((fun t => if t = 1 then Track.mk "aaaaaaaaaaa" "A" (ArtistField.seq [])
            else Track.mk "bbbbbbbbbbb" "B" (ArtistField.seq [])) (0 + 2)) (0 + 2)
        ((fun t => if t = 1 then ResolveOutcome.rejected "boom"
            else ResolveOutcome.resolved (some "urlB")) (0 + 2))) ∧
    completePlayRequest (PlayerState.mk 7 none none [] none none [] [])
      (Track.mk "ccccccccccc" "C" (ArtistField.seq [])) 3
      (ResolveOutcome.resolved (some "urlC"))
      = PlayerState.mk 7 none none [] none none [] [] ∧
    completePlayRequest (PlayerState.mk 7 none none [] none none [] [])
      (Track.mk "ccccccccccc" "C" (ArtistField.seq [])) 3
      (ResolveOutcome.rejected "Stale request")
      = PlayerState.mk 7 none none [] none none [] [] ∧
    (("oops" : String) ≠ "Stale request" →
      completePlayRequest (PlayerState.mk 7 none none [] none none [] [])
        (Track.mk "ccccccccccc" "C" (ArtistField.seq [])) 3
        (ResolveOutcome.rejected "oops")
        = { PlayerState.mk 7 none none [] none none [] [] with
            notifications :=
              (if ("oops" : String) = "" then "Could not play song." else "oops")
                :: [] })) :=
  c1_amended_last_token_wins (PlayerState.mk 0 none none [] none none [] []) 0 2 rfl
    (fun t => if t = 1 then Track.mk "aaaaaaaaaaa" "A" (ArtistField.seq [])
        else Track.mk "bbbbbbbbbbb" "B" (ArtistField.seq []))
    (fun t => if t = 1 then ResolveOutcome.rejected "boom"
        else ResolveOutcome.resolved (some "urlB"))
    [(2, Track.mk "bbbbbbbbbbb" "B" (ArtistField.seq []),
        ResolveOutcome.resolved (some "urlB")),
     (1, Track.mk "aaaaaaaaaaa" "A" (ArtistField.seq []),
        ResolveOutcome.rejected "boom")]
    (by decide) (by decide) (by decide)
    (PlayerState.mk 7 none none [] none none [] [])
    (Track.mk "ccccccccccc" "C" (ArtistField.seq [])) 3 (some "urlC") "oops"
    (by decide)

/-! ### Claim C2 -/

/-- C2 counterexample: with a prefetch-cache entry exactly matching the
requested track id (`getPrefetchedUrl` would return the cached URL), the
coordinator still requests the URL from the external resolver —
`playAudioAndUpdateUI` (renderer.js line 680) calls
`window.electronAPI.getAudioStream` unconditionally and `getPrefetchedUrl`
has no call site, so the claimed cache-first behaviour does not exist. -/
theorem c2_counterexample :
    getPrefetchedUrl
        (PlayerState.mk 1 none none [] (some "cachedUrl") (some "abcdefghijk") [] [])
        "abcdefghijk" = some "cachedUrl" ∧
    requestStreamSource
        (PlayerState.mk 1 none none [] (some "cachedUrl") (some "abcdefghijk") [] [])
        (Track.mk "abcdefghijk" "S" (ArtistField.seq []))
      = StreamSource.resolver "abcdefghijk" ∧
    requestStreamSource
        (PlayerState.mk 1 none none [] (some "cachedUrl") (some "abcdefghijk") [] [])
        (Track.mk "abcdefghijk" "S" (ArtistField.seq []))
      ≠ requestStreamSourceSpec
        (PlayerState.mk 1 none none [] (some "cachedUrl") (some "abcdefghijk") [] [])
        (Track.mk "abcdefghijk" "S" (ArtistField.seq [])) := by
  refine ⟨rfl, rfl, ?_⟩
  decide

/-- C2 (amended): for every play request the coordinator obtains the
stream URL from the external Stream Resolver — the Prefetch Cache is
never consulted (`getPrefetchedUrl` is dead code) — and on every
successful still-current resolution the cache is cleared before the
result is applied. -/
theorem c2_amended_resolver_always (s : PlayerState) (song : Track) (tok : Nat)
    (u : String) (hcur : tok = s.latestPlayRequestToken) (hu : u ≠ "") :
    requestStreamSource s song = StreamSource.resolver song.id ∧
    (completePlayRequest s song tok (ResolveOutcome.resolved (some u))).prefetchedUrl
      = none ∧
    (completePlayRequest s song tok (ResolveOutcome.resolved (some u))).prefetchedId
      = none := by
  have hstep : completePlayRequest s song tok (ResolveOutcome.resolved (some u))
      = { s with prefetchedUrl := none, prefetchedId := none, audioSrc := some u,
                 nowPlayingTitle := some song.title,
                 playedHistory := addToHistory s.playedHistory song.id,
                 appliedTokens := tok :: s.appliedTokens } := by
    simp only [completePlayRequest]
    rw [if_neg (not_not_intro hcur)]
    rw [if_neg hu]
  rw [hstep]
  exact ⟨rfl, rfl, rfl⟩

/-- C2 witness: concrete instantiation of the amended claim. -/
theorem c2_amended_resolver_always_witness :
    requestStreamSource (PlayerState.mk 4 none none [] (some "u0") (some "xxxxxxxxxxx") [] [])
        (Track.mk "ddddddddddd" "D" (ArtistField.seq ["d"]))
      = StreamSource.resolver "ddddddddddd" ∧
    (completePlayRequest (PlayerState.mk 4 none none [] (some "u0") (some "xxxxxxxxxxx") [] [])
        (Track.mk "ddddddddddd" "D" (ArtistField.seq ["d"])) 4
        (ResolveOutcome.resolved (some "urlD"))).prefetchedUrl = none ∧
    (completePlayRequest (PlayerState.mk 4 none none [] (some "u0") (some "xxxxxxxxxxx") [] [])
        (Track.mk "ddddddddddd" "D" (ArtistField.seq ["d"])) 4
        (ResolveOutcome.resolved (some "urlD"))).prefetchedId = none :=
  c2_amended_resolver_always
    (PlayerState.mk 4 none none [] (some "u0") (some "xxxxxxxxxxx") [] [])
    (Track.mk "ddddddddddd" "D" (ArtistField.seq ["d"])) 4 "urlD" rfl (by decide)

/-! ### Claim C9 -/

/-- C9 counterexample: a play request with a stale token (3, current is 5)
whose resolver call rejects with an external error message is not
swallowed silently: the rejection skips the post-await token re-check and
the `catch` block's `err.message !== "Stale request"` test lets the
notification through. -/
theorem c9_counterexample :
    (completePlayRequest (PlayerState.mk 5 (some "urlX") none [] none none [] [])
        (Track.mk "zzzzzzzzzzz" "Z" (ArtistField.seq [])) 3
        (ResolveOutcome.rejected "network error")).notifications
      = ["network error"] ∧ (3 : Nat) ≠ 5 := by
  constructor <;> decide

/-- C9 (amended): when stream resolution fails, a still-current request
surfaces a user-visible failure and leaves the audio source untouched; a
stale request whose resolution fulfilled (empty/undefined URL included) is
swallowed silently as a no-op; a rejected resolver call is surfaced
regardless of staleness — with its message, or the fallback
`"Could not play song."` when the message is empty — unless the message
equals the internal `"Stale request"` sentinel, which the catch block
swallows; rejections touch nothing but the notification log. -/
theorem c9_amended_failure_surfacing (s : PlayerState) (song : Track) (tok : Nat)
    (msg : String) (url : Option String) :
    (tok = s.latestPlayRequestToken →
       (completePlayRequest s song tok (ResolveOutcome.resolved none)).notifications
         = "Could not fetch stream URL" :: s.notifications ∧
       (completePlayRequest s song tok (ResolveOutcome.resolved none)).audioSrc
         = s.audioSrc ∧
       (completePlayRequest s song tok (ResolveOutcome.resolved (some ""))).notifications
         = "Could not fetch stream URL" :: s.notifications) ∧
    (msg ≠ "Stale request" →
       (completePlayRequest s song tok (ResolveOutcome.rejected msg)).notifications
         = (if msg = "" then "Could not play song." else msg) :: s.notifications) ∧
    completePlayRequest s song tok (ResolveOutcome.rejected "Stale request") = s ∧
    ((completePlayRequest s song tok (ResolveOutcome.rejected msg)).audioSrc
       = s.audioSrc ∧
     (completePlayRequest s song tok (ResolveOutcome.rejected msg)).appliedTokens
       = s.appliedTokens) ∧
    (tok ≠ s.latestPlayRequestToken →
       completePlayRequest s song tok (ResolveOutcome.resolved url) = s) := by
  have hrej : (completePlayRequest s song tok (ResolveOutcome.rejected msg)).audioSrc
        = s.audioSrc ∧
      (completePlayRequest s song tok (ResolveOutcome.rejected msg)).appliedTokens
        = s.appliedTokens := by
    by_cases hm : msg = "Stale request"
    · simp only [completePlayRequest]
      rw [if_pos hm]
      exact ⟨rfl, rfl⟩
    · simp only [completePlayRequest]
      rw [if_neg hm]
      exact ⟨rfl, rfl⟩
  refine ⟨?_, ?_, by simp [completePlayRequest], hrej, ?_⟩
  case refine_2 =>
    intro hm
    simp only [completePlayRequest]
    rw [if_neg hm]
  · intro hcur
    have hnone : completePlayRequest s song tok (ResolveOutcome.resolved none)
        = { s with notifications := "Could not fetch stream URL" :: s.notifications } := by
      simp only [completePlayRequest]
      rw [if_neg (not_not_intro hcur)]
    have hempty : completePlayRequest s song tok (ResolveOutcome.resolved (some ""))
        = { s with notifications := "Could not fetch stream URL" :: s.notifications } := by
      simp only [completePlayRequest]
      rw [if_neg (not_not_intro hcur)]
      simp
    rw [hnone, hempty]
    exact ⟨rfl, rfl, rfl⟩
  · intro hstale
    simp only [completePlayRequest]
    rw [if_pos hstale]

/-- C9 witness: concrete instantiation of the amended claim. -/
theorem c9_amended_failure_surfacing_witness :
    ((4 : Nat) = 4 →
       (completePlayRequest (PlayerState.mk 4 (some "old") none [] none none [] [])
           (Track.mk "eeeeeeeeeee" "E" (ArtistField.seq [])) 4
           (ResolveOutcome.resolved none)).notifications
         = "Could not fetch stream URL" :: [] ∧
       (completePlayRequest (PlayerState.mk 4 (some "old") none [] none none [] [])
           (Track.mk "eeeeeeeeeee" "E" (ArtistField.seq [])) 4
           (ResolveOutcome.resolved none)).audioSrc = some "old" ∧
       (completePlayRequest (PlayerState.mk 4 (some "old") none [] none none [] [])
           (Track.mk "eeeeeeeeeee" "E" (ArtistField.seq [])) 4
           (ResolveOutcome.resolved (some ""))).notifications
         = "Could not fetch stream URL" :: []) ∧
    (("bad" : String) ≠ "Stale request" →
       (completePlayRequest (PlayerState.mk 4 (some "old") none [] none none [] [])
          (Track.mk "eeeeeeeeeee" "E" (ArtistField.seq [])) 4
          (ResolveOutcome.rejected "bad")).notifications
         = (if ("bad" : String) = "" then "Could not play song." else "bad") :: []) ∧
    completePlayRequest (PlayerState.mk 4 (some "old") none [] none none [] [])
        (Track.mk "eeeeeeeeeee" "E" (ArtistField.seq [])) 4
        (ResolveOutcome.rejected "Stale request")
      = PlayerState.mk 4 (some "old") none [] none none [] [] ∧
    ((completePlayRequest (PlayerState.mk 4 (some "old") none [] none none [] [])
          (Track.mk "eeeeeeeeeee" "E" (ArtistField.seq [])) 4
          (ResolveOutcome.rejected "bad")).audioSrc = some "old" ∧
     (completePlayRequest (PlayerState.mk 4 (some "old") none [] none none [] [])
          (Track.mk "eeeeeeeeeee" "E" (ArtistField.seq [])) 4
          (ResolveOutcome.rejected "bad")).appliedTokens = []) ∧
    ((4 : Nat) ≠ 4 →
       completePlayRequest (PlayerState.mk 4 (some "old") none [] none none [] [])
           (Track.mk "eeeeeeeeeee" "E" (ArtistField.seq [])) 4
           (ResolveOutcome.resolved (some "whatever"))
         = PlayerState.mk 4 (some "old") none [] none none [] []) :=
  c9_amended_failure_surfacing (PlayerState.mk 4 (some "old") none [] none none [] [])
    (Track.mk "eeeeeeeeeee" "E" (ArtistField.seq [])) 4 "bad" (some "whatever")

/-! ### History lemmas -/

theorem filter_ne_eq_self (h : List String) (id : String) (hid : id ∉ h) :
    h.filter (fun x => x != id) = h := by
  apply List.filter_eq_self.mpr
  intro x hx
  exact bne_iff_ne.mpr (fun heq => hid (heq ▸ hx))

theorem filter_ne_length (h : List String) (id : String)
    (hnd : h.Nodup) (hmem : id ∈ h) :
    (h.filter (fun x => x != id)).length + 1 = h.length := by
  induction h with
  | nil => cases hmem
  | cons a t ih =>
      obtain ⟨hna, hnt⟩ := List.nodup_cons.mp hnd
      by_cases hq : a = id
      · subst hq
        rw [List.filter_cons]
        simp only [bne_self_eq_false, Bool.false_eq_true, if_false]
        rw [filter_ne_eq_self t a hna]
        rfl
      · have hne : (a != id) = true := bne_iff_ne.mpr hq
        rw [List.filter_cons]
        simp only [hne, if_true]
        have hmt : id ∈ t := by
          rcases List.mem_cons.mp hmem with h1 | h1
          · exact absurd h1.symm hq
          · exact h1
        have := ih hnt hmt
        simp only [List.length_cons]
        omega

theorem addToHistory_inv (h : List String) (id : String)
    (hlen : h.length ≤ 50) (hnd : h.Nodup) :
    (addToHistory h id).length ≤ 50 ∧ (addToHistory h id).Nodup := by
  by_cases hid : id = ""
  · simp only [addToHistory, hid, if_true]
    exact ⟨hlen, hnd⟩
  · have hunfold : addToHistory h id
        = (if (id :: h.filter (fun x => x != id)).length > 50
            then (id :: h.filter (fun x => x != id)).dropLast
            else (id :: h.filter (fun x => x != id))) := by
      simp [addToHistory, hid]
    have hfnd : (h.filter (fun x => x != id)).Nodup := hnd.filter _
    have hfid : id ∉ h.filter (fun x => x != id) := by
      intro hmem
      have := (List.mem_filter.mp hmem).2
      simp at this
    have hcons : (id :: h.filter (fun x => x != id)).Nodup :=
      List.nodup_cons.mpr ⟨hfid, hfnd⟩
    have hflen : (h.filter (fun x => x != id)).length ≤ h.length :=
      List.length_filter_le _ _
    rw [hunfold]
    split
    · refine ⟨?_, (List.dropLast_sublist _).nodup hcons⟩
      rw [List.length_dropLast]
      simp only [List.length_cons]
      omega
    · refine ⟨?_, hcons⟩
      simp only [List.length_cons] at *
      omega

theorem foldl_addToHistory_inv (ids : List String) :
    ∀ h : List String, h.length ≤ 50 → h.Nodup →
      (ids.foldl addToHistory h).length ≤ 50 ∧ (ids.foldl addToHistory h).Nodup := by
  induction ids with
  | nil => intro h h1 h2; exact ⟨h1, h2⟩
  | cons a t ih =>
      intro h h1 h2
      obtain ⟨h1', h2'⟩ := addToHistory_inv h a h1 h2
      exact ih (addToHistory h a) h1' h2'

/-! ### Claim C5 -/

/-- C5 (confirmed): every history reachable from the empty history by
`addToHistory` calls has at most 50 entries and no duplicates; recording
an id already present (in a bounded duplicate-free history) keeps the
length and moves the id to the front; recording a fresh id into a full
history drops the oldest (last) entry. -/
theorem c5_history_bounded_nodup (ids : List String) (h : List String) (id : String)
    (hlen : h.length ≤ 50) (hnd : h.Nodup) (hid : id ≠ "") :
    ((ids.foldl addToHistory []).length ≤ 50 ∧ (ids.foldl addToHistory []).Nodup) ∧
    (id ∈ h → (addToHistory h id).length = h.length ∧
       (addToHistory h id).head? = some id) ∧
    (id ∉ h → h.length = 50 → addToHistory h id = id :: h.dropLast) := by
  refine ⟨foldl_addToHistory_inv ids [] (by simp) List.nodup_nil, ?_, ?_⟩
  · intro hmem
    have hflen := filter_ne_length h id hnd hmem
    have hsmall : ¬((id :: h.filter (fun x => x != id)).length > 50) := by
      simp only [List.length_cons]
      omega
    have hunfold : addToHistory h id = id :: h.filter (fun x => x != id) := by
      simp only [addToHistory, hid, if_false]
      rw [if_neg hsmall]
    rw [hunfold]
    constructor
    · simp only [List.length_cons]
      omega
    · rfl
  · intro hnmem h50
    have hfeq := filter_ne_eq_self h id hnmem
    have hbig : (id :: h.filter (fun x => x != id)).length > 50 := by
      rw [hfeq]
      simp [h50]
    have hunfold : addToHistory h id
        = (id :: h.filter (fun x => x != id)).dropLast := by
      simp only [addToHistory, hid, if_false]
      rw [if_pos hbig]
    rw [hunfold, hfeq]
    rcases h with _ | ⟨a, t⟩
    · simp at h50
    · rfl

/-- C5 witness: concrete instantiation (re-recording "x" in ["x", "y"]). -/
theorem c5_history_bounded_nodup_witness :
    (((["a", "b"].foldl addToHistory []).length ≤ 50 ∧
       (["a", "b"].foldl addToHistory []).Nodup)) ∧
    ("x" ∈ ["x", "y"] → (addToHistory ["x", "y"] "x").length = (["x", "y"] : List String).length ∧
       (addToHistory ["x", "y"] "x").head? = some "x") ∧
    ("x" ∉ ["x", "y"] → (["x", "y"] : List String).length = 50 →
       addToHistory ["x", "y"] "x" = "x" :: (["x", "y"] : List String).dropLast) :=
  c5_history_bounded_nodup ["a", "b"] ["x", "y"] "x" (by decide) (by decide) (by decide)

/-! ### Claim C8 -/

/-- C8 (confirmed): after `fetchUpNext` completes, every buffered track's
id was in neither the history nor the queue's id set at filtering time and
its artists field is a sequence; a rejected fetch empties the buffer. -/
theorem c8_up_next_filtered_normalized (s : QueueState)
    (response : Except Unit (Option (List (Option Track)))) (t : Track) :
    (t ∈ (s.fetchUpNext response).upNextSongs →
       t.id ∉ s.playedHistory ∧ t.id ∉ s.songQueue.map Track.id ∧
       t.artists.isSeq = true) ∧
    (response = Except.error () → (s.fetchUpNext response).upNextSongs = []) := by
  constructor
  · intro hmem
    cases hc : s.getCurrentItem with
    | none =>
        have hnil : (s.fetchUpNext response).upNextSongs = [] := by
          simp [QueueState.fetchUpNext, hc]
        rw [hnil] at hmem
        cases hmem
    | some cur =>
        cases response with
        | error u =>
            have hnil : (s.fetchUpNext (Except.error u)).upNextSongs = [] := by
              simp [QueueState.fetchUpNext, hc]
            rw [hnil] at hmem
            cases hmem
        | ok upNexts =>
            have hchar : (s.fetchUpNext (Except.ok upNexts)).upNextSongs
                = (((upNexts.getD []).filterMap (fun o => o)).filter
                    (fun song => !(jsIncludes s.playedHistory song.id)
                      && !(jsIncludes (s.songQueue.map Track.id) song.id))).map
                    (fun song =>
                      { song with artists := normalizeArtists song.artists }) := by
              simp [QueueState.fetchUpNext, hc]
            rw [hchar] at hmem
            obtain ⟨pre, hpre, rfl⟩ := List.mem_map.mp hmem
            obtain ⟨hpre2, hcond⟩ := List.mem_filter.mp hpre
            rw [Bool.and_eq_true] at hcond
            obtain ⟨hh, hq⟩ := hcond
            rw [Bool.not_eq_true'] at hh hq
            refine ⟨?_, ?_, ?_⟩
            · intro hm
              have hx := (jsIncludes_iff s.playedHistory pre.id).mpr hm
              rw [hh] at hx
              cases hx
            · intro hm
              have hx := (jsIncludes_iff (s.songQueue.map Track.id) pre.id).mpr hm
              rw [hq] at hx
              cases hx
            · cases pre.artists <;> rfl
  · rintro rfl
    cases hc : s.getCurrentItem <;> simp [QueueState.fetchUpNext, hc]

/-- C8 witness: a queue with current track A and history ["hhhhhhhhhhh"];
the response contains a null entry, a duplicate of A, a history hit, and a
fresh candidate with a scalar artists field. -/
theorem c8_up_next_filtered_normalized_witness :
    ((Track.mk "ccccccccccc" "C" (ArtistField.seq ["solo"])) ∈
       ((QueueState.mk [Track.mk "aaaaaaaaaaa" "A" (ArtistField.seq [])] 0 [] none none
           ["hhhhhhhhhhh"]).fetchUpNext
         (Except.ok (some [some (Track.mk "aaaaaaaaaaa" "A2" (ArtistField.seq [])),
            none,
            some (Track.mk "hhhhhhhhhhh" "H" (ArtistField.seq [])),
            some (Track.mk "ccccccccccc" "C" (ArtistField.scalar "solo"))]))).upNextSongs →
       (Track.mk "ccccccccccc" "C" (ArtistField.seq ["solo"])).id ∉
         (["hhhhhhhhhhh"] : List String) ∧
       (Track.mk "ccccccccccc" "C" (ArtistField.seq ["solo"])).id ∉
         ([Track.mk "aaaaaaaaaaa" "A" (ArtistField.seq [])].map Track.id) ∧
       (Track.mk "ccccccccccc" "C" (ArtistField.seq ["solo"])).artists.isSeq = true) ∧
    (Except.ok (some [some (Track.mk "aaaaaaaaaaa" "A2" (ArtistField.seq [])),
        none,
        some (Track.mk "hhhhhhhhhhh" "H" (ArtistField.seq [])),
        some (Track.mk "ccccccccccc" "C" (ArtistField.scalar "solo"))])
      = (Except.error () : Except Unit (Option (List (Option Track)))) →
      ((QueueState.mk [Track.mk "aaaaaaaaaaa" "A" (ArtistField.seq [])] 0 [] none none
          ["hhhhhhhhhhh"]).fetchUpNext
        (Except.ok (some [some (Track.mk "aaaaaaaaaaa" "A2" (ArtistField.seq [])),
           none,
           some (Track.mk "hhhhhhhhhhh" "H" (ArtistField.seq [])),
           some (Track.mk "ccccccccccc" "C" (ArtistField.scalar "solo"))]))).upNextSongs
        = []) :=
  c8_up_next_filtered_normalized
    (QueueState.mk [Track.mk "aaaaaaaaaaa" "A" (ArtistField.seq [])] 0 [] none none
      ["hhhhhhhhhhh"])
    (Except.ok (some [some (Track.mk "aaaaaaaaaaa" "A2" (ArtistField.seq [])),
       none,
       some (Track.mk "hhhhhhhhhhh" "H" (ArtistField.seq [])),
       some (Track.mk "ccccccccccc" "C" (ArtistField.scalar "solo"))]))
    (Track.mk "ccccccccccc" "C" (ArtistField.seq ["solo"]))

/-! ### Claim C3 -/

/-- C3 counterexample: playing track A with a source collection whose
track list is [B] replaces the queue with [B] and sets the cursor to the
`findIndex` result `-1`: the cursor denotes "no selection" and A is *not*
appended, refuting the claimed append-and-select fallback. -/
theorem c3_counterexample :
    (QueueState.initial.setSongForPlayback
        (Track.mk "aaaaaaaaaaa" "A" (ArtistField.seq []))
        (some (Playlist.mk
          (some [Track.mk "bbbbbbbbbbb" "B" (ArtistField.seq [])]) none))).currentSongIndex
      = -1 ∧
    (QueueState.initial.setSongForPlayback
        (Track.mk "aaaaaaaaaaa" "A" (ArtistField.seq []))
        (some (Playlist.mk
          (some [Track.mk "bbbbbbbbbbb" "B" (ArtistField.seq [])]) none))).songQueue
      = [Track.mk "bbbbbbbbbbb" "B" (ArtistField.seq [])] := by
  constructor <;> decide

/-- C3 (amended): with a source collection, `setSongForPlayback` replaces
the whole sequence with the collection's track list and sets the cursor to
the first index whose id matches the track; when no id matches, the cursor
becomes `-1` (no selection) and the track is *not* appended. -/
theorem c3_amended_source_collection (s : QueueState) (song : Track) (p : Playlist) :
    ((s.setSongForPlayback song (some p)).songQueue = p.tracklist) ∧
    ((∃ t ∈ p.tracklist, t.id = song.id) →
       ∃ (i : Nat) (hi : i < p.tracklist.length),
         (s.setSongForPlayback song (some p)).currentSongIndex = (i : Int) ∧
         (p.tracklist.get ⟨i, hi⟩).id = song.id ∧
         ∀ j, j < i → ∀ hj : j < p.tracklist.length,
           (p.tracklist.get ⟨j, hj⟩).id ≠ song.id) ∧
    ((∀ t ∈ p.tracklist, t.id ≠ song.id) →
       (s.setSongForPlayback song (some p)).currentSongIndex = -1) := by
  refine ⟨rfl, ?_, ?_⟩
  · rintro ⟨t, ht, hid⟩
    obtain ⟨i, hsome⟩ := findIdxAux_of_mem (fun x => x.id == song.id) p.tracklist t ht
      (by rw [beq_iff_eq]; exact hid)
    obtain ⟨hlt, hpi⟩ := findIdxAux_get _ _ _ hsome
    refine ⟨i, hlt, ?_, beq_iff_eq.mp hpi, ?_⟩
    · show findIndexJS (fun x => x.id == song.id) p.tracklist = (i : Int)
      simp [findIndexJS, hsome]
    · intro j hj hj2 heq
      obtain ⟨hj3, hpj⟩ := findIdxAux_min _ _ _ hsome j hj
      have hx : ((p.tracklist.get ⟨j, hj3⟩).id == song.id) = true :=
        beq_iff_eq.mpr heq
      rw [hpj] at hx
      cases hx
  · intro hall
    have hnone : findIdxAux (fun x => x.id == song.id) p.tracklist = none := by
      rw [findIdxAux_eq_none_iff]
      intro x hx
      rw [beq_eq_false_iff_ne]
      exact hall x hx
    show findIndexJS (fun x => x.id == song.id) p.tracklist = -1
    simp [findIndexJS, hnone]

/-- C3 witness: concrete instantiation with the track present in the
collection (second position). -/
theorem c3_amended_source_collection_witness :
    ((QueueState.initial.setSongForPlayback
        (Track.mk "bbbbbbbbbbb" "B" (ArtistField.seq []))
        (some (Playlist.mk (some [Track.mk "ccccccccccc" "C" (ArtistField.seq []),
          Track.mk "bbbbbbbbbbb" "B" (ArtistField.seq [])]) none))).songQueue
      = (Playlist.mk (some [Track.mk "ccccccccccc" "C" (ArtistField.seq []),
          Track.mk "bbbbbbbbbbb" "B" (ArtistField.seq [])]) none).tracklist) ∧
    ((∃ t ∈ (Playlist.mk (some [Track.mk "ccccccccccc" "C" (ArtistField.seq []),
          Track.mk "bbbbbbbbbbb" "B" (ArtistField.seq [])]) none).tracklist,
        t.id = (Track.mk "bbbbbbbbbbb" "B" (ArtistField.seq [])).id) →
       ∃ (i : Nat) (hi : i < (Playlist.mk
            (some [Track.mk "ccccccccccc" "C" (ArtistField.seq []),
              Track.mk "bbbbbbbbbbb" "B" (ArtistField.seq [])]) none).tracklist.length),
         (QueueState.initial.setSongForPlayback
            (Track.mk "bbbbbbbbbbb" "B" (ArtistField.seq []))
            (some (Playlist.mk (some [Track.mk "ccccccccccc" "C" (ArtistField.seq []),
              Track.mk "bbbbbbbbbbb" "B" (ArtistField.seq [])]) none))).currentSongIndex
           = (i : Int) ∧
         ((Playlist.mk (some [Track.mk "ccccccccccc" "C" (ArtistField.seq []),
             Track.mk "bbbbbbbbbbb" "B" (ArtistField.seq [])]) none).tracklist.get
            ⟨i, hi⟩).id = (Track.mk "bbbbbbbbbbb" "B" (ArtistField.seq [])).id ∧
         ∀ j, j < i → ∀ hj : j < (Playlist.mk
             (some [Track.mk "ccccccccccc" "C" (ArtistField.seq []),
               Track.mk "bbbbbbbbbbb" "B" (ArtistField.seq [])]) none).tracklist.length,
           ((Playlist.mk (some [Track.mk "ccccccccccc" "C" (ArtistField.seq []),
               Track.mk "bbbbbbbbbbb" "B" (ArtistField.seq [])]) none).tracklist.get
              ⟨j, hj⟩).id ≠ (Track.mk "bbbbbbbbbbb" "B" (ArtistField.seq [])).id) ∧
    ((∀ t ∈ (Playlist.mk (some [Track.mk "ccccccccccc" "C" (ArtistField.seq []),
          Track.mk "bbbbbbbbbbb" "B" (ArtistField.seq [])]) none).tracklist,
        t.id ≠ (Track.mk "bbbbbbbbbbb" "B" (ArtistField.seq [])).id) →
       (QueueState.initial.setSongForPlayback
          (Track.mk "bbbbbbbbbbb" "B" (ArtistField.seq []))
          (some (Playlist.mk (some [Track.mk "ccccccccccc" "C" (ArtistField.seq []),
            Track.mk "bbbbbbbbbbb" "B" (ArtistField.seq [])]) none))).currentSongIndex
         = -1) :=
  c3_amended_source_collection QueueState.initial
    (Track.mk "bbbbbbbbbbb" "B" (ArtistField.seq []))
    (Playlist.mk (some [Track.mk "ccccccccccc" "C" (ArtistField.seq []),
      Track.mk "bbbbbbbbbbb" "B" (ArtistField.seq [])]) none)

/-! ### Claim C10 -/

/-- C10 (confirmed): any `videoId` that is not an 11-character string over
`[a-zA-Z0-9_-]` makes `getAudioStream` and `getVideoStream` resolve `null`
and `getUpNexts` resolve `[]`, with no `ipcRenderer.invoke` reaching the
external resolver/catalog. -/
theorem c10_invalid_id_no_invoke (v : JsInput) (countryCode : String)
    (h : ∀ s, v = JsInput.str s →
      ¬(s.length = 11 ∧ ∀ c ∈ s.toList, allowedIdChar c = true)) :
    getAudioStream v = ApiCall.resolve none ∧
    getVideoStream v = ApiCall.resolve none ∧
    getUpNexts v countryCode = ApiCall.resolve [] := by
  have hv : isValidVideoId v = false := by
    cases v with
    | nonString => rfl
    | str s =>
        have hs := h s rfl
        rcases Bool.eq_false_or_eq_true (isValidVideoId (JsInput.str s)) with ht | hf
        · exfalso
          simp only [isValidVideoId, Bool.and_eq_true, decide_eq_true_eq,
            List.all_eq_true] at ht
          exact hs ⟨ht.1, ht.2⟩
        · exact hf
  refine ⟨?_, ?_, ?_⟩ <;> simp [getAudioStream, getVideoStream, getUpNexts, hv]

/-- C10 witness: a non-string input. -/
theorem c10_invalid_id_no_invoke_witness :
    getAudioStream JsInput.nonString = ApiCall.resolve none ∧
    getVideoStream JsInput.nonString = ApiCall.resolve none ∧
    getUpNexts JsInput.nonString "US" = ApiCall.resolve [] :=
  c10_invalid_id_no_invoke JsInput.nonString "US" (fun s hs => nomatch hs)

/-! ### Queue invariant preservation lemmas -/

theorem setSongForPlayback_cursorInv (s : QueueState) (song : Track)
    (p : Option Playlist) (h : cursorInvariant s) :
    cursorInvariant (s.setSongForPlayback song p) := by
  cases p with
  | some pl =>
      unfold QueueState.setSongForPlayback cursorInvariant
      dsimp only
      exact findIndexJS_cases (fun t => t.id == song.id) pl.tracklist
  | none =>
      unfold QueueState.setSongForPlayback
      dsimp only
      split
      case isTrue hex =>
          rcases findIndexJS_cases (fun t => t.id == song.id) s.songQueue with hf | hf
          · exact absurd hf hex
          · exact Or.inr hf
      case isFalse hex =>
          unfold cursorInvariant at h ⊢
          dsimp only
          rw [insertAtList_length]
          rcases h with h | h
          · right
            constructor <;> omega
          · right
            constructor <;> omega

theorem playNextOrUpNext_cursorInv (s : QueueState) (h : cursorInvariant s) :
    cursorInvariant s.playNextOrUpNext := by
  unfold QueueState.playNextOrUpNext
  split
  case isTrue hlt =>
      unfold cursorInvariant at h ⊢
      dsimp only
      rcases h with h | h
      · right
        constructor <;> omega
      · right
        constructor <;> omega
  case isFalse hge =>
      split
      case h_1 x rest heq =>
          unfold cursorInvariant at h ⊢
          dsimp only
          simp only [List.length_append, List.length_cons, List.length_nil]
          rcases h with h | h
          · right
            constructor <;> omega
          · right
            constructor <;> omega
      case h_2 heq => exact h

theorem previous_cursorInv (s : QueueState) (b : Bool) (h : cursorInvariant s) :
    cursorInvariant (s.previous b) := by
  unfold QueueState.previous
  split
  · exact h
  · split
    · exact h
    · split
      case isTrue hgt =>
          unfold cursorInvariant at h ⊢
          dsimp only
          rcases h with h | h
          · omega
          · right
            constructor <;> omega
      case isFalse hgt => exact h

theorem removeItem_cursorInv (s : QueueState) (index : Int) (h : cursorInvariant s) :
    cursorInvariant (s.removeItem index) := by
  unfold QueueState.removeItem
  split
  case isTrue => exact h
  case isFalse hidx =>
      push_neg at hidx
      obtain ⟨hi0, hilen⟩ := hidx
      have hlen : (removeAtList s.songQueue index.toNat).length + 1
          = s.songQueue.length :=
        removeAtList_length _ _ (by omega)
      dsimp only
      split
      case isTrue hcur =>
          apply playNextOrUpNext_cursorInv
          unfold cursorInvariant
          dsimp only
          omega
      case isFalse hcur =>
          split
          case isTrue hlt =>
              unfold cursorInvariant at h ⊢
              dsimp only
              rcases h with h | h
              · omega
              · right
                constructor <;> omega
          case isFalse hge =>
              unfold cursorInvariant at h ⊢
              dsimp only
              rcases h with h | h
              · left
                exact h
              · right
                constructor <;> omega

theorem reorderItem_cursorInv (s : QueueState) (oldIndex newIndex : Nat)
    (ho : oldIndex < s.songQueue.length) (hn : newIndex < s.songQueue.length)
    (h : cursorInvariant s) :
    cursorInvariant (s.reorderItem oldIndex newIndex) := by
  unfold QueueState.reorderItem
  split
  case isTrue => exact h
  case isFalse hne =>
      have hget : s.songQueue.get? oldIndex
          = some (s.songQueue.get ⟨oldIndex, ho⟩) := List.get?_eq_get ho
      dsimp only
      rw [hget]
      dsimp only
      cases hcur : s.getCurrentItem with
      | none =>
          simp only [Option.map_none']
          left
          unfold QueueState.getCurrentItem at hcur
          rcases h with h | h
          · exact h
          · exfalso
            rw [if_neg (by omega)] at hcur
            rw [List.get?_eq_get
              (show s.currentSongIndex.toNat < s.songQueue.length by omega)] at hcur
            cases hcur
      | some cur =>
          simp only [Option.map_some']
          have hperm : (insertAtList (removeAtList s.songQueue oldIndex) newIndex
              (s.songQueue.get ⟨oldIndex, ho⟩)).Perm s.songQueue :=
            (insertAtList_perm _ _ _).trans
              (removeAtList_cons_perm s.songQueue oldIndex _ hget).symm
          by_cases hcid : cur.id = ""
          · rw [if_pos hcid]
            unfold cursorInvariant at h ⊢
            dsimp only
            rw [hperm.length_eq]
            exact h
          · rw [if_neg hcid]
            have hmem : cur ∈ s.songQueue := by
              unfold QueueState.getCurrentItem at hcur
              split at hcur
              · cases hcur
              · exact List.get?_mem hcur
            have hmem2 : cur ∈ insertAtList (removeAtList s.songQueue oldIndex) newIndex
                (s.songQueue.get ⟨oldIndex, ho⟩) := hperm.mem_iff.mpr hmem
            obtain ⟨i, hilt, heq, hpi⟩ :=
              findIndexJS_of_mem (fun t => t.id == cur.id) _ cur hmem2
                (beq_self_eq_true cur.id)
            right
            dsimp only
            rw [heq]
            exact ⟨Int.ofNat_nonneg i, by exact_mod_cast hilt⟩

theorem playFromUpNext_cursorInv (s : QueueState) (index : Nat)
    (h : cursorInvariant s) : cursorInvariant (s.playFromUpNext index) := by
  unfold QueueState.playFromUpNext
  split
  case h_1 x heqx =>
      right
      dsimp only
      simp only [List.length_append, List.length_cons, List.length_nil]
      constructor
      · exact Int.ofNat_nonneg _
      · omega
  case h_2 => exact h

theorem addSongToQueue_cursorInv (s : QueueState) (song : Track)
    (h : cursorInvariant s) : cursorInvariant (s.addSongToQueue song) := by
  unfold QueueState.addSongToQueue
  dsimp only
  split
  case isTrue hc =>
      apply setSongForPlayback_cursorInv
      unfold cursorInvariant
      dsimp only
      simp only [List.length_append, List.length_cons, List.length_nil]
      left
      exact hc.1
  case isFalse hc =>
      unfold cursorInvariant at h ⊢
      dsimp only
      simp only [List.length_append, List.length_cons, List.length_nil]
      rcases h with h | h
      · left
        exact h
      · right
        constructor <;> omega

theorem addSongToPlayNext_cursorInv (s : QueueState) (song : Track)
    (h : cursorInvariant s) : cursorInvariant (s.addSongToPlayNext song) := by
  unfold QueueState.addSongToPlayNext
  unfold cursorInvariant at h ⊢
  dsimp only
  rw [insertAtList_length]
  rcases h with h | h
  · left
    exact h
  · right
    constructor <;> omega

/-! ### Claim C4 -/

/-- C4 (confirmed): every queue operation — `setForPlayback`, `append`,
`insertNext`, `advance`, `retreat`, `removeAt`, `reorder` (on the in-range
indices the Sortable handler produces), and play-from-recommendations —
preserves the invariant that the cursor is `-1` or a valid index. -/
theorem c4_cursor_invariant (s : QueueState) (op : QueueOp)
    (hinv : cursorInvariant s) (hval : op.valid s) :
    cursorInvariant (s.applyOp op) := by
  cases op with
  | setForPlayback song p => exact setSongForPlayback_cursorInv s song p hinv
  | append song => exact addSongToQueue_cursorInv s song hinv
  | insertNext song => exact addSongToPlayNext_cursorInv s song hinv
  | advance => exact playNextOrUpNext_cursorInv s hinv
  | retreat b => exact previous_cursorInv s b hinv
  | removeAt index => exact removeItem_cursorInv s index hinv
  | reorder oldIndex newIndex =>
      exact reorderItem_cursorInv s oldIndex newIndex hval.1 hval.2 hinv
  | playFromRecommendations index => exact playFromUpNext_cursorInv s index hinv

/-- C4 witness: advancing past the end of a one-song queue with a
non-empty recommendation buffer. -/
theorem c4_cursor_invariant_witness :
    cursorInvariant ((QueueState.mk [Track.mk "aaaaaaaaaaa" "A" (ArtistField.seq [])] 0
        [Track.mk "bbbbbbbbbbb" "B" (ArtistField.seq [])] none none []).applyOp
      QueueOp.advance) :=
  c4_cursor_invariant
    (QueueState.mk [Track.mk "aaaaaaaaaaa" "A" (ArtistField.seq [])] 0
      [Track.mk "bbbbbbbbbbb" "B" (ArtistField.seq [])] none none [])
    QueueOp.advance (by decide) trivial

/-! ### Claim C6 -/

/-- C6 counterexample: queue `[A, B]`, cursor `1` (the last track), empty
recommendation buffer.  `removeItem 1` yields queue `[A]` with cursor `0`:
the cursor is valid but points at the *preceding* track `A` — there was no
next-in-sequence track (`get? 2 = none`) and nothing was appended from the
(empty) buffer — refuting the claim's "either the next in-sequence track,
or a track appended from the recommendation buffer". -/
theorem c6_counterexample :
    (QueueState.mk [Track.mk "aaaaaaaaaaa" "A" (ArtistField.seq []),
        Track.mk "bbbbbbbbbbb" "B" (ArtistField.seq [])] 1 [] none none []).removeItem 1
      = QueueState.mk [Track.mk "aaaaaaaaaaa" "A" (ArtistField.seq [])] 0 [] none none []
    ∧ (QueueState.mk [Track.mk "aaaaaaaaaaa" "A" (ArtistField.seq []),
        Track.mk "bbbbbbbbbbb" "B" (ArtistField.seq [])] 1 [] none none
         []).songQueue.get? 2 = none := by
  constructor <;> decide

/-- C6 (amended): on a queue of length `N > 1` with a valid cursor,
`removeItem cursor` always leaves the cursor at a valid index; the new
current track is the old next-in-sequence track when one existed, the
head of the recommendation buffer when the removed track was last and the
buffer was non-empty, and otherwise (last track removed, empty buffer) the
cursor falls back to the preceding track. -/
theorem c6_amended_remove_current (s : QueueState)
    (hlen : 1 < s.songQueue.length)
    (h0 : 0 ≤ s.currentSongIndex)
    (h1 : s.currentSongIndex < (s.songQueue.length : Int)) :
    (0 ≤ (s.removeItem s.currentSongIndex).currentSongIndex ∧
     (s.removeItem s.currentSongIndex).currentSongIndex
       < (((s.removeItem s.currentSongIndex).songQueue.length : Int))) ∧
    (s.currentSongIndex < (s.songQueue.length : Int) - 1 →
       (s.removeItem s.currentSongIndex).getCurrentItem
         = s.songQueue.get? (s.currentSongIndex.toNat + 1)) ∧
    (s.currentSongIndex = (s.songQueue.length : Int) - 1 →
       ∀ x rest, s.upNextSongs = x :: rest →
         (s.removeItem s.currentSongIndex).getCurrentItem = some x) ∧
    (s.currentSongIndex = (s.songQueue.length : Int) - 1 → s.upNextSongs = [] →
       (s.removeItem s.currentSongIndex).currentSongIndex
         = s.currentSongIndex - 1) := by
  have hidx : s.currentSongIndex.toNat < s.songQueue.length := by omega
  have hlen' := removeAtList_length s.songQueue s.currentSongIndex.toNat hidx
  have hstep : s.removeItem s.currentSongIndex
      = QueueState.playNextOrUpNext
          { s with songQueue := removeAtList s.songQueue s.currentSongIndex.toNat,
                   currentSongIndex := s.currentSongIndex - 1 } := by
    unfold QueueState.removeItem
    rw [if_neg (by omega)]
    dsimp only
    rw [if_pos rfl]
  refine ⟨?_, ?_, ?_, ?_⟩
  · rw [hstep]
    unfold QueueState.playNextOrUpNext
    by_cases hc : s.currentSongIndex - 1
        < (((removeAtList s.songQueue s.currentSongIndex.toNat).length : Int)) - 1
    · rw [if_pos (by dsimp only; exact hc)]
      dsimp only
      constructor <;> omega
    · rw [if_neg (by dsimp only; exact hc)]
      dsimp only
      cases hup : s.upNextSongs with
      | nil =>
          dsimp only
          constructor <;> omega
      | cons x rest =>
          dsimp only
          simp only [List.length_append, List.length_cons, List.length_nil]
          constructor <;> omega
  · intro hc2
    rw [hstep]
    unfold QueueState.playNextOrUpNext
    rw [if_pos (by dsimp only; omega)]
    dsimp only
    unfold QueueState.getCurrentItem
    dsimp only
    rw [if_neg (by omega)]
    have htn : (s.currentSongIndex - 1 + 1).toNat = s.currentSongIndex.toNat := by
      omega
    rw [htn]
    exact removeAtList_get?_ge s.songQueue s.currentSongIndex.toNat
      s.currentSongIndex.toNat (Nat.le_refl _)
  · intro hc3 x rest hup
    rw [hstep]
    unfold QueueState.playNextOrUpNext
    rw [if_neg (by dsimp only; omega)]
    dsimp only
    rw [hup]
    dsimp only
    unfold QueueState.getCurrentItem
    dsimp only
    rw [if_neg (by omega)]
    have hq : (s.currentSongIndex - 1 + 1).toNat
        = (removeAtList s.songQueue s.currentSongIndex.toNat).length := by
      omega
    rw [hq]
    exact get?_concat_length _ x
  · intro hc4 hup
    rw [hstep]
    unfold QueueState.playNextOrUpNext
    rw [if_neg (by dsimp only; omega)]
    dsimp only
    rw [hup]

/-- C6 witness: queue `[A, B, C]` with the middle track current, empty
buffer; removing the current track selects the old next track `C`. -/
theorem c6_amended_remove_current_witness :
    (0 ≤ ((QueueState.mk [Track.mk "aaaaaaaaaaa" "A" (ArtistField.seq []),
        Track.mk "bbbbbbbbbbb" "B" (ArtistField.seq []),
        Track.mk "ccccccccccc" "C" (ArtistField.seq [])] 1 [] none none
        []).removeItem 1).currentSongIndex ∧
     ((QueueState.mk [Track.mk "aaaaaaaaaaa" "A" (ArtistField.seq []),
        Track.mk "bbbbbbbbbbb" "B" (ArtistField.seq []),
        Track.mk "ccccccccccc" "C" (ArtistField.seq [])] 1 [] none none
        []).removeItem 1).currentSongIndex
       < ((((QueueState.mk [Track.mk "aaaaaaaaaaa" "A" (ArtistField.seq []),
        Track.mk "bbbbbbbbbbb" "B" (ArtistField.seq []),
        Track.mk "ccccccccccc" "C" (ArtistField.seq [])] 1 [] none none
        []).removeItem 1).songQueue.length : Int))) ∧
    ((1 : Int) < (([Track.mk "aaaaaaaaaaa" "A" (ArtistField.seq []),
        Track.mk "bbbbbbbbbbb" "B" (ArtistField.seq []),
        Track.mk "ccccccccccc" "C" (ArtistField.seq [])] : List Track).length : Int) - 1 →
       ((QueueState.mk [Track.mk "aaaaaaaaaaa" "A" (ArtistField.seq []),
        Track.mk "bbbbbbbbbbb" "B" (ArtistField.seq []),
        Track.mk "ccccccccccc" "C" (ArtistField.seq [])] 1 [] none none
        []).removeItem 1).getCurrentItem
         = ([Track.mk "aaaaaaaaaaa" "A" (ArtistField.seq []),
        Track.mk "bbbbbbbbbbb" "B" (ArtistField.seq []),
        Track.mk "ccccccccccc" "C" (ArtistField.seq [])] : List Track).get?
            ((1 : Int).toNat + 1)) ∧
    ((1 : Int) = (([Track.mk "aaaaaaaaaaa" "A" (ArtistField.seq []),
        Track.mk "bbbbbbbbbbb" "B" (ArtistField.seq []),
        Track.mk "ccccccccccc" "C" (ArtistField.seq [])] : List Track).length : Int) - 1 →
       ∀ x rest, ([] : List Track) = x :: rest →
         ((QueueState.mk [Track.mk "aaaaaaaaaaa" "A" (ArtistField.seq []),
        Track.mk "bbbbbbbbbbb" "B" (ArtistField.seq []),
        Track.mk "ccccccccccc" "C" (ArtistField.seq [])] 1 [] none none
        []).removeItem 1).getCurrentItem = some x) ∧
    ((1 : Int) = (([Track.mk "aaaaaaaaaaa" "A" (ArtistField.seq []),
        Track.mk "bbbbbbbbbbb" "B" (ArtistField.seq []),
        Track.mk "ccccccccccc" "C" (ArtistField.seq [])] : List Track).length : Int) - 1 →
       ([] : List Track) = [] →
       ((QueueState.mk [Track.mk "aaaaaaaaaaa" "A" (ArtistField.seq []),
        Track.mk "bbbbbbbbbbb" "B" (ArtistField.seq []),
        Track.mk "ccccccccccc" "C" (ArtistField.seq [])] 1 [] none none
        []).removeItem 1).currentSongIndex = (1 : Int) - 1) :=
  c6_amended_remove_current
    (QueueState.mk [Track.mk "aaaaaaaaaaa" "A" (ArtistField.seq []),
      Track.mk "bbbbbbbbbbb" "B" (ArtistField.seq []),
      Track.mk "ccccccccccc" "C" (ArtistField.seq [])] 1 [] none none [])
    (by decide) (by decide) (by decide)

/-! ### Claim C7 -/

/-- C7 counterexample: with queue `[X, Y]` where the current track `X` has
the empty-string id, `reorderItem 0 1` moves `X` behind `Y` but the JS
truthiness test `if (currentSongId)` (renderer.js line 902) is false for
`""`, so the cursor index stays `0` and the current track becomes `Y` —
the id of the current track changes, refuting the claim that `reorder`
never changes which track is current by id. -/
theorem c7_counterexample :
    (QueueState.mk [Track.mk "" "Empty" (ArtistField.seq []),
        Track.mk "yyyyyyyyyyy" "Y" (ArtistField.seq [])] 0 [] none none
        []).getCurrentItem
      = some (Track.mk "" "Empty" (ArtistField.seq [])) ∧
    ((QueueState.mk [Track.mk "" "Empty" (ArtistField.seq []),
        Track.mk "yyyyyyyyyyy" "Y" (ArtistField.seq [])] 0 [] none none
        []).reorderItem 0 1).getCurrentItem
      = some (Track.mk "yyyyyyyyyyy" "Y" (ArtistField.seq [])) ∧
    ("yyyyyyyyyyy" : String) ≠ ("" : String) := by
  refine ⟨?_, ?_, ?_⟩ <;> decide

/-- C7 (amended): for in-range indices, `reorderItem` permutes the queue
(moving a single element, adding and removing nothing), and when the
current track exists *and its id is non-empty* (truthy, so the
`if (currentSongId)` recomputation on renderer.js line 902 runs) the
track at the cursor afterwards has the same id, the cursor being
recomputed by identity rather than kept by index; with an empty-string
current id the code keeps the cursor index and the current track may
change identity. -/
theorem c7_reorder_preserves_current_id (s : QueueState) (oldIndex newIndex : Nat)
    (ho : oldIndex < s.songQueue.length) (hn : newIndex < s.songQueue.length)
    (cur : Track) (hcur : s.getCurrentItem = some cur) (hid : cur.id ≠ "") :
    (s.reorderItem oldIndex newIndex).songQueue.Perm s.songQueue ∧
    (s.reorderItem oldIndex newIndex).songQueue.length = s.songQueue.length ∧
    ∃ cur', (s.reorderItem oldIndex newIndex).getCurrentItem = some cur' ∧
      cur'.id = cur.id := by
  by_cases hone : oldIndex = newIndex
  · have hres : s.reorderItem oldIndex newIndex = s := by
      unfold QueueState.reorderItem
      rw [if_pos hone]
    rw [hres]
    exact ⟨List.Perm.refl _, rfl, cur, hcur, rfl⟩
  · have hget : s.songQueue.get? oldIndex
        = some (s.songQueue.get ⟨oldIndex, ho⟩) := List.get?_eq_get ho
    have hres : s.reorderItem oldIndex newIndex
        = { s with
            songQueue := insertAtList (removeAtList s.songQueue oldIndex) newIndex
              (s.songQueue.get ⟨oldIndex, ho⟩),
            currentSongIndex := findIndexJS (fun t => t.id == cur.id)
              (insertAtList (removeAtList s.songQueue oldIndex) newIndex
                (s.songQueue.get ⟨oldIndex, ho⟩)) } := by
      unfold QueueState.reorderItem
      rw [if_neg hone]
      dsimp only
      rw [hget, hcur]
      simp only [Option.map_some']
      rw [if_neg hid]
    rw [hres]
    have hperm : (insertAtList (removeAtList s.songQueue oldIndex) newIndex
        (s.songQueue.get ⟨oldIndex, ho⟩)).Perm s.songQueue :=
      (insertAtList_perm _ _ _).trans
        (removeAtList_cons_perm s.songQueue oldIndex _ hget).symm
    refine ⟨hperm, hperm.length_eq, ?_⟩
    have hmem : cur ∈ s.songQueue := by
      unfold QueueState.getCurrentItem at hcur
      split at hcur
      · cases hcur
      · exact List.get?_mem hcur
    have hmem2 : cur ∈ insertAtList (removeAtList s.songQueue oldIndex) newIndex
        (s.songQueue.get ⟨oldIndex, ho⟩) := hperm.mem_iff.mpr hmem
    obtain ⟨i, hilt, heq, hpi⟩ :=
      findIndexJS_of_mem (fun t => t.id == cur.id) _ cur hmem2
        (beq_self_eq_true cur.id)
    refine ⟨(insertAtList (removeAtList s.songQueue oldIndex) newIndex
        (s.songQueue.get ⟨oldIndex, ho⟩)).get ⟨i, hilt⟩, ?_, beq_iff_eq.mp hpi⟩
    unfold QueueState.getCurrentItem
    dsimp only
    rw [heq]
    rw [if_neg (by omega)]
    rw [Int.toNat_ofNat]
    exact List.get?_eq_get hilt

/-- C7 witness: moving the current head of `[A, B, C]` to the end. -/
theorem c7_reorder_preserves_current_id_witness :
    ((QueueState.mk [Track.mk "aaaaaaaaaaa" "A" (ArtistField.seq []),
        Track.mk "bbbbbbbbbbb" "B" (ArtistField.seq []),
        Track.mk "ccccccccccc" "C" (ArtistField.seq [])] 0 [] none none
        []).reorderItem 0 2).songQueue.Perm
      [Track.mk "aaaaaaaaaaa" "A" (ArtistField.seq []),
        Track.mk "bbbbbbbbbbb" "B" (ArtistField.seq []),
        Track.mk "ccccccccccc" "C" (ArtistField.seq [])] ∧
    ((QueueState.mk [Track.mk "aaaaaaaaaaa" "A" (ArtistField.seq []),
        Track.mk "bbbbbbbbbbb" "B" (ArtistField.seq []),
        Track.mk "ccccccccccc" "C" (ArtistField.seq [])] 0 [] none none
        []).reorderItem 0 2).songQueue.length
      = ([Track.mk "aaaaaaaaaaa" "A" (ArtistField.seq []),
        Track.mk "bbbbbbbbbbb" "B" (ArtistField.seq []),
        Track.mk "ccccccccccc" "C" (ArtistField.seq [])] : List Track).length ∧
    ∃ cur', ((QueueState.mk [Track.mk "aaaaaaaaaaa" "A" (ArtistField.seq []),
        Track.mk "bbbbbbbbbbb" "B" (ArtistField.seq []),
        Track.mk "ccccccccccc" "C" (ArtistField.seq [])] 0 [] none none
        []).reorderItem 0 2).getCurrentItem = some cur' ∧
      cur'.id = (Track.mk "aaaaaaaaaaa" "A" (ArtistField.seq [])).id :=
  c7_reorder_preserves_current_id
    (QueueState.mk [Track.mk "aaaaaaaaaaa" "A" (ArtistField.seq []),
      Track.mk "bbbbbbbbbbb" "B" (ArtistField.seq []),
      Track.mk "ccccccccccc" "C" (ArtistField.seq [])] 0 [] none none [])
    0 2 (by decide) (by decide)
    (Track.mk "aaaaaaaaaaa" "A" (ArtistField.seq [])) (by decide) (by decide)

end MetroWave
